import Mathlib

/-!
Jubilee Veto: the shared vote record and its replication.

A shallow embedding of `scripts/jubilee-veto.mjs`.  The world setting
`activeVote` is a value of `VoteState`; every function of the module that reads or
writes it becomes a function from the record it reads (`getActiveVote()`) to the
record stored afterwards together with the trace of effects it performs (local
notifications, socket emissions, chat messages, sounds, tracker redraws).

Static markup and the randomly chosen flavour line of a chat message are not part
of the model; the data interpolated into the message is.
-/

namespace JubileeVeto

/-! ## Data model -/

/-- The record kept in the world setting `activeVote` (lines 120-134). -/
structure VoteState where
  active : Bool
  topic : String
  calledBy : String
  calledById : String
  voters : List String
  voterIds : List String
  timestamp : Option Nat
  deriving DecidableEq, Repr

/-- The registered default of `activeVote`, which is also the literal every reset stores
(lines 125-133, 297-305, 358-366, 435-443). -/
def defaultVote : VoteState :=
  { active := false, topic := "", calledBy := "", calledById := "",
    voters := [], voterIds := [], timestamp := none }

/-- The part of `game.user` the module reads: `id`, `name`, `character?.name`, `isGM`. -/
structure User where
  id : String
  name : String
  characterName : Option String
  isGM : Bool
  deriving DecidableEq, Repr

/-- The world settings the module reads and never writes (lines 75-117). -/
structure Settings where
  vetoThreshold : Nat
  showVoterNames : Bool
  soundEnabled : Bool
  gmCanVeto : Bool
  deriving DecidableEq, Repr

/-- What one client sees while it runs a function: its user, the settings, `Date.now()`. -/
structure Env where
  user : User
  settings : Settings
  now : Nat
  deriving DecidableEq, Repr

/-- The messages sent on the module socket, one constructor per `action`, with the payload
each carries in the source. -/
inductive SocketMsg where
  | refreshTracker
  | voteCalled
  | vetoReached (topic : String)
  | requestCallJubilee (vote : VoteState)
  | requestVote (oderId : String) (voterName : String)
  | requestCancel
  deriving DecidableEq, Repr

/-- The data interpolated into each chat message the module creates.  A `topic` is shown
through `foundry.utils.encodeHTML`; `dissenters` is `vote.voters.join(", ")` when voter names
are shown. -/
inductive ChatMsg where
  | called (callerName : String) (topic : String) (votes : Nat) (threshold : Nat)
  | voteCast (voterLabel : String) (newCount : Nat) (threshold : Nat)
  | vetoReached (topic : String) (dissenters : Option String)
  | cancelled
  deriving DecidableEq, Repr

/-- One observable effect of a function of the module. -/
inductive Effect where
  | warn (msg : String)
  | info (msg : String)
  | emit (m : SocketMsg)
  | chat (c : ChatMsg)
  | play (src : String)
  | render
  deriving DecidableEq, Repr

/-- The action string of a socket message. -/
def SocketMsg.action : SocketMsg → String
  | .refreshTracker => "refreshTracker"
  | .voteCalled => "voteCalled"
  | .vetoReached _ => "vetoReached"
  | .requestCallJubilee _ => "requestCallJubilee"
  | .requestVote _ _ => "requestVote"
  | .requestCancel => "requestCancel"

/-- The `topic` a socket message carries, if its payload has one. -/
def SocketMsg.topicField : SocketMsg → Option String
  | .vetoReached topic => some topic
  | .requestCallJubilee vote => some vote.topic
  | _ => none

/-- The list of voter names a socket message carries, if its payload has one. -/
def SocketMsg.votersField : SocketMsg → Option (List String)
  | .requestCallJubilee vote => some vote.voters
  | _ => none

/-- The socket messages among the effects of a run, in emission order. -/
def emitted : List Effect → List SocketMsg
  | [] => []
  | .emit m :: rest => m :: emitted rest
  | _ :: rest => emitted rest

/-- The chat messages among the effects of a run, in creation order. -/
def chats : List Effect → List ChatMsg
  | [] => []
  | .chat c :: rest => c :: chats rest
  | _ :: rest => chats rest

/-! ## Core logic -/

/-- The expression `game.user.character?.name || game.user.name` (lines 178, 248). -/
def displayName (u : User) : String :=
  match u.characterName with
  | some n => if n ≠ "" then n else u.name
  | none => u.name

/-- The record `newVote` built by `callJubilee` (lines 180-188). -/
def newVote (u : User) (topic : String) (now : Nat) : VoteState :=
  { active := true
    topic := if topic ≠ "" then topic else "an unnamed proposal"
    calledBy := displayName u
    calledById := u.id
    voters := [displayName u]
    voterIds := [u.id]
    timestamp := some now }

/-- The function `callJubilee(topic)` (lines 165-224), run on the record `vote` that
`getActiveVote()` returns on the calling client. -/
def callJubilee (env : Env) (topic : String) (vote : VoteState) : VoteState × List Effect :=
  if vote.active then
    (vote, [.warn "A Jubilee vote is already in progress! Vote or cancel it first."])
  else if !env.user.isGM && env.user.isGM then
    (vote, [])
  else
    let nv := newVote env.user topic env.now
    let written : VoteState × List Effect :=
      if env.user.isGM then (nv, []) else (vote, [.emit (.requestCallJubilee nv)])
    (written.1,
      written.2
        ++ [.chat (.called (displayName env.user) nv.topic 1 env.settings.vetoThreshold)]
        ++ (if env.settings.soundEnabled then [.play "sounds/drums.wav"] else [])
        ++ [.emit .voteCalled, .emit .refreshTracker, .render])

/-- The function `processVote(oderId, voterName)` (lines 280-338). -/
def processVote (env : Env) (oderId voterName : String) (vote : VoteState) :
    VoteState × List Effect :=
  if !env.user.isGM then (vote, [])
  else if !vote.active then (vote, [])
  else if vote.voterIds.contains oderId then (vote, [])
  else
    let voters := vote.voters ++ [voterName]
    let voterIds := vote.voterIds ++ [oderId]
    if voters.length ≥ env.settings.vetoThreshold then
      (defaultVote,
        [.chat (.vetoReached vote.topic
            (if env.settings.showVoterNames then some (", ".intercalate voters) else none))]
          ++ (if env.settings.soundEnabled then [.play "sounds/lock.wav"] else [])
          ++ [.emit (.vetoReached vote.topic), .emit .refreshTracker, .render])
    else
      ({ vote with voters := voters, voterIds := voterIds }, [.emit .refreshTracker, .render])

/-- The function `castVote()` (lines 230-278). -/
def castVote (env : Env) (vote : VoteState) : VoteState × List Effect :=
  if !vote.active then
    (vote, [.warn "No Jubilee vote is active."])
  else if !env.settings.gmCanVeto && env.user.isGM then
    (vote, [.warn "The GM cannot participate in Jubilee votes (configurable in settings)."])
  else if vote.voterIds.contains env.user.id then
    (vote, [.info "You have already cast your vote in this Jubilee."])
  else
    let voterName := displayName env.user
    let sent : VoteState × List Effect :=
      if env.user.isGM then processVote env env.user.id voterName vote
      else (vote, [.emit (.requestVote env.user.id voterName)])
    (sent.1,
      sent.2 ++ [.chat (.voteCast (if env.settings.showVoterNames then voterName else "A companion")
        (vote.voters.length + 1) env.settings.vetoThreshold)])

/-- The function `cancelJubilee()` (lines 344-385). -/
def cancelJubilee (env : Env) (vote : VoteState) : VoteState × List Effect :=
  if !vote.active then
    (vote, [.warn "No Jubilee vote is active to cancel."])
  else if !env.user.isGM && env.user.id ≠ vote.calledById then
    (vote, [.warn "Only the GM or the person who called the Jubilee can cancel it."])
  else
    let written : VoteState × List Effect :=
      if env.user.isGM then (defaultVote, []) else (vote, [.emit .requestCancel])
    (written.1, written.2 ++ [.chat .cancelled, .emit .refreshTracker, .render])

/-- The listener installed by `registerGMSocketProcessor()` (lines 412-450), applied to one
incoming message `data`; a client that is not GM installs no listener. -/
def registerGMSocketProcessor (env : Env) (data : SocketMsg) (vote : VoteState) :
    VoteState × List Effect :=
  if !env.user.isGM then (vote, [])
  else
    match data with
    | .requestCallJubilee v => (v, [.emit .refreshTracker, .render])
    | .requestVote oderId voterName =>
      if voterName ≠ "" && oderId ≠ "" then processVote env oderId voterName vote else (vote, [])
    | .requestCancel =>
      if vote.active then (defaultVote, [.emit .refreshTracker, .render]) else (vote, [])
    | _ => (vote, [])

/-! ## The replicated system -/

/-- The record stored on the authority after its listener has handled the messages `msgs`
one after the other. -/
def deliver (gmEnv : Env) : List SocketMsg → VoteState → VoteState
  | [], vote => vote
  | m :: rest, vote => deliver gmEnv rest (registerGMSocketProcessor gmEnv m vote).1

/-- A user intent.  A GM runs the function on the stored record; any other user runs it on
the copy `view` their client holds (which may be stale) and the messages it emits reach the
authority. -/
inductive Op where
  | call (u : User) (topic : String) (now : Nat) (view : VoteState)
  | vote (u : User) (now : Nat) (view : VoteState)
  | cancel (u : User) (now : Nat) (view : VoteState)
  deriving DecidableEq, Repr

/-- The user who issues an intent. -/
def Op.user : Op → User
  | .call u _ _ _ => u
  | .vote u _ _ => u
  | .cancel u _ _ => u

/-- The record stored on the authority `gm` after one intent, from the stored record `s`. -/
def step (cfg : Settings) (gm : User) (s : VoteState) : Op → VoteState
  | .call u topic now view =>
    if u.isGM then (callJubilee ⟨u, cfg, now⟩ topic s).1
    else deliver ⟨gm, cfg, now⟩ (emitted (callJubilee ⟨u, cfg, now⟩ topic view).2) s
  | .vote u now view =>
    if u.isGM then (castVote ⟨u, cfg, now⟩ s).1
    else deliver ⟨gm, cfg, now⟩ (emitted (castVote ⟨u, cfg, now⟩ view).2) s
  | .cancel u now view =>
    if u.isGM then (cancelJubilee ⟨u, cfg, now⟩ s).1
    else deliver ⟨gm, cfg, now⟩ (emitted (cancelJubilee ⟨u, cfg, now⟩ view).2) s

/-- The record stored on the authority after a sequence of intents. -/
def runOps (cfg : Settings) (gm : User) : List Op → VoteState → VoteState
  | [], s => s
  | op :: rest, s => runOps cfg gm rest (step cfg gm s op)


/-- The record `processVote` stores when it appends a voter and the veto is not reached
(lines 287-288, 334): the voter is pushed onto `voters` and `voterIds`, nothing else changes. -/
def pushVoter (s : VoteState) (oderId voterName : String) : VoteState :=
  { s with voters := s.voters ++ [voterName], voterIds := s.voterIds ++ [oderId] }

/-! ## Concrete participants and records used in the evaluations below -/

/-- The game master of the example session. -/
def gmUser : User := { id := "gm", name := "Gamemaster", characterName := none, isGM := true }

/-- A player who plays the character Brunhilde. -/
def playerA : User :=
  { id := "a", name := "Anna", characterName := some "Brunhilde", isGM := false }

/-- A player without an assigned character. -/
def playerB : User := { id := "b", name := "Bert", characterName := none, isGM := false }

/-- The registered defaults of the settings: threshold 3, names shown, sound on, GM cannot
vote (lines 81, 96, 106, 116). -/
def defaultSettings : Settings :=
  { vetoThreshold := 3, showVoterNames := true, soundEnabled := true, gmCanVeto := false }

/-- The settings of scenario B of the specification: threshold 2. -/
def quorumTwo : Settings :=
  { vetoThreshold := 2, showVoterNames := true, soundEnabled := true, gmCanVeto := false }

/-- The vote `playerA` opened against "loot the shrine" at time 5. -/
def shrineVote : VoteState := newVote playerA "loot the shrine" 5

/-- The vote `playerB` asks for against "cross the bridge" at time 6. -/
def bridgeVote : VoteState := newVote playerB "cross the bridge" 6

/-! ## The tracker widget -/

/-- The flag `canVote` computed by `renderTracker` (lines 464-465). -/
def canVote (env : Env) (vote : VoteState) : Bool :=
  vote.active && !vote.voterIds.contains env.user.id &&
    (env.settings.gmCanVeto || !env.user.isGM)

/-- The flag `canCancel` computed by `renderTracker` (line 466). -/
def canCancel (env : Env) (vote : VoteState) : Bool :=
  vote.active && (env.user.isGM || env.user.id == vote.calledById)

/-- The markup one pass of the pip loop appends to `pipsHtml` (lines 471-473).  The function
`foundry.utils.encodeHTML` belongs to the host and is taken as the parameter `encodeHTML`. -/
def pipHtml (encodeHTML : String → String) (env : Env) (vote : VoteState) (i : Nat) : String :=
  let filled : Bool := decide (i < (if vote.active then vote.voters.length else 0))
  let voterLabel : String :=
    match vote.voters[i]? with
    | some n =>
      if filled && env.settings.showVoterNames && n ≠ "" then
        " title=\"" ++ encodeHTML n ++ "\""
      else ""
    | none => ""
  "<div class=\"jubilee-tracker__pip "
    ++ (if filled then "jubilee-tracker__pip--filled" else "") ++ "\"" ++ voterLabel ++ "></div>"

/-- The string `pipsHtml` after the loop `for (let i = 0; i < threshold; i++)` (lines 469-474). -/
def pipsHtml (encodeHTML : String → String) (env : Env) (vote : VoteState) : String :=
  (List.range env.settings.vetoThreshold).foldl
    (fun acc i => acc ++ pipHtml encodeHTML env vote i) ""

/-- The number of UTF-16 units JavaScript stores for a character: two outside the basic
plane, one otherwise. -/
def utf16Units (c : Char) : Nat :=
  if c.toNat < 65536 then 1 else 2

/-- The value of `s.length` in JavaScript: the number of UTF-16 units of `s`. -/
def utf16Length (s : String) : Nat :=
  (s.data.map utf16Units).sum

/-- The characters of `s.substring(0, n)`: the longest start of `s` of at most `n` UTF-16
units.  When the cut falls between the two units of a character, JavaScript keeps the first
unit alone; a string here cannot hold half a character, and U+FFFD stands for it. -/
def utf16Take : List Char → Nat → List Char
  | [], _ => []
  | c :: cs, n =>
    if n = 0 then []
    else if utf16Units c ≤ n then c :: utf16Take cs (n - utf16Units c)
    else [Char.ofNat 65533]

/-- The text shown for the topic (line 488): `vote.topic.substring(0, 40)` and an ellipsis
when `vote.topic.length > 40`, the topic itself otherwise, with lengths in UTF-16 units as
in JavaScript. -/
def topicText (vote : VoteState) : String :=
  if utf16Length vote.topic > 40 then String.mk (utf16Take vote.topic.data 40) ++ "…"
  else vote.topic

/-- The element that shows the topic (lines 487-489). -/
def topicHtml (encodeHTML : String → String) (vote : VoteState) : String :=
  "<div class=\"jubilee-tracker__topic\" title=\"" ++ encodeHTML vote.topic ++ "\">\n        \""
    ++ topicText vote ++ "\"\n      </div>"

/-- The slot `canVote ? <button data-action="vote"> : ""` of the template (line 493). -/
def voteButtonHtml (env : Env) (vote : VoteState) : String :=
  if canVote env vote then
    "<button class=\"jubilee-tracker__btn jubilee-tracker__btn--vote\" data-action=\"vote\">Vote ✋</button>"
  else ""

/-- The slot `canCancel ? <button data-action="cancel"> : ""` of the template (line 494). -/
def cancelButtonHtml (env : Env) (vote : VoteState) : String :=
  if canCancel env vote then
    "<button class=\"jubilee-tracker__btn jubilee-tracker__btn--cancel\" data-action=\"cancel\">Cancel ✕</button>"
  else ""

/-- The string `renderTracker()` assigns to `tracker.innerHTML` (lines 481-501), for the record
`vote` that `getActiveVote()` returns on the rendering client. -/
def renderTracker (encodeHTML : String → String) (env : Env) (vote : VoteState) : String :=
  "\n    <div class=\"jubilee-tracker__header\">\n      <span class=\"jubilee-tracker__title\">⚖ Jubilee</span>\n      <span class=\"jubilee-tracker__status\">"
    ++ (if vote.active then "VOTE ACTIVE" else "No Vote")
    ++ "</span>\n    </div>\n    "
    ++ (if vote.active then
          "\n      " ++ topicHtml encodeHTML vote
            ++ "\n      <div class=\"jubilee-tracker__pips\">" ++ pipsHtml encodeHTML env vote
            ++ "</div>\n      <div class=\"jubilee-tracker__count\">"
            ++ toString vote.voters.length ++ " / " ++ toString env.settings.vetoThreshold
            ++ " votes</div>\n      <div class=\"jubilee-tracker__actions\">\n        "
            ++ voteButtonHtml env vote ++ "\n        " ++ cancelButtonHtml env vote
            ++ "\n      </div>\n    "
        else
          "\n      <div class=\"jubilee-tracker__actions\">\n        <button class=\"jubilee-tracker__btn jubilee-tracker__btn--call\" data-action=\"call\">Call Jubilee ⚖</button>\n      </div>\n    ")
    ++ "\n  "

/-- The guards of `castVote` as the specification words them: the vote is active, the
participant is not a GM barred from voting, and the participant id is not in `voterIds`. -/
def passesVoteGuards (env : Env) (vote : VoteState) : Prop :=
  vote.active = true ∧ ¬ (env.user.isGM = true ∧ env.settings.gmCanVeto = false) ∧
    env.user.id ∉ vote.voterIds

/-- The vote `playerA` opened against a topic that is markup. -/
def markupVote : VoteState := newVote playerA "<img src=x onerror=alert(1)>" 5

/-! ## Shared lemmas -/

theorem processVote_cases (env : Env) (oderId voterName : String) (s : VoteState) :
    (processVote env oderId voterName s).1 = s ∨
    (processVote env oderId voterName s).1 = defaultVote ∨
    (s.active = true ∧ oderId ∉ s.voterIds ∧ s.voters.length + 1 < env.settings.vetoThreshold ∧
      (processVote env oderId voterName s).1 = pushVoter s oderId voterName) := by
  unfold processVote
  by_cases hgm : env.user.isGM = true
  · by_cases hact : s.active = true
    · by_cases hin : oderId ∈ s.voterIds
      · simp [hgm, hact, hin]
      · by_cases hthr : env.settings.vetoThreshold ≤ s.voters.length + 1
        · simp [hgm, hact, hin, hthr]
        · right; right
          have hlt : s.voters.length + 1 < env.settings.vetoThreshold := by omega
          simp [hgm, hact, hin, hthr, pushVoter, hlt]
    · simp [hgm, hact]
  · simp [hgm]

theorem processor_cases (env : Env) (m : SocketMsg) (s : VoteState) :
    (registerGMSocketProcessor env m s).1 = s ∨
    (registerGMSocketProcessor env m s).1 = defaultVote ∨
    (∃ v, m = .requestCallJubilee v ∧ (registerGMSocketProcessor env m s).1 = v) ∨
    (∃ oderId voterName, s.active = true ∧ oderId ∉ s.voterIds ∧
      s.voters.length + 1 < env.settings.vetoThreshold ∧
      (registerGMSocketProcessor env m s).1 = pushVoter s oderId voterName) := by
  unfold registerGMSocketProcessor
  by_cases hgm : env.user.isGM = true
  · cases m with
    | requestCallJubilee v => right; right; left; exact ⟨v, rfl, by simp [hgm]⟩
    | requestVote oderId voterName =>
      by_cases hok : ¬voterName = "" ∧ ¬oderId = ""
      · rcases processVote_cases env oderId voterName s with h | h | h
        · left; simp [hgm, hok, h]
        · right; left; simp [hgm, hok, h]
        · right; right; right
          exact ⟨oderId, voterName, h.1, h.2.1, h.2.2.1, by simp [hgm, hok, h.2.2.2]⟩
      · left; simp [hgm, hok]
    | requestCancel =>
      by_cases hact : s.active = true
      · right; left; simp [hgm, hact]
      · left; simp [hgm, hact]
    | refreshTracker => left; simp [hgm]
    | voteCalled => left; simp [hgm]
    | vetoReached t => left; simp [hgm]
  · left; simp [hgm]

theorem emitted_append (xs ys : List Effect) : emitted (xs ++ ys) = emitted xs ++ emitted ys := by
  induction xs with
  | nil => rfl
  | cons x xs ih => cases x <;> simp [emitted, ih]

theorem callJubilee_emitted (env : Env) (topic : String) (view v : VoteState)
    (h : SocketMsg.requestCallJubilee v ∈ emitted (callJubilee env topic view).2) :
    v = newVote env.user topic env.now := by
  unfold callJubilee at h
  by_cases hact : view.active = true
  · simp [hact, emitted] at h
  · by_cases hgm : env.user.isGM = true <;> by_cases hs : env.settings.soundEnabled = true <;>
      simp [hact, hgm, hs, emitted, emitted_append] at h
    all_goals exact h

theorem processVote_emitted (env : Env) (oderId voterName : String) (s v : VoteState) :
    SocketMsg.requestCallJubilee v ∉ emitted (processVote env oderId voterName s).2 := by
  unfold processVote
  by_cases hgm : env.user.isGM = true <;> by_cases hact : s.active = true <;>
    by_cases hin : oderId ∈ s.voterIds <;>
    by_cases hthr : env.settings.vetoThreshold ≤ s.voters.length + 1 <;>
    by_cases hs : env.settings.soundEnabled = true <;>
    simp [hgm, hact, hin, hthr, hs, emitted, emitted_append]

theorem castVote_emitted (env : Env) (view v : VoteState) :
    SocketMsg.requestCallJubilee v ∉ emitted (castVote env view).2 := by
  have hp := processVote_emitted env env.user.id (displayName env.user) view v
  unfold castVote
  by_cases hact : view.active = true <;> by_cases hgm : env.user.isGM = true <;>
    by_cases hcan : env.settings.gmCanVeto = true <;>
    by_cases hin : env.user.id ∈ view.voterIds <;>
    simp [hact, hgm, hcan, hin, emitted, emitted_append, hp]

theorem cancelJubilee_emitted (env : Env) (view v : VoteState) :
    SocketMsg.requestCallJubilee v ∉ emitted (cancelJubilee env view).2 := by
  unfold cancelJubilee
  by_cases hact : view.active = true <;> by_cases hgm : env.user.isGM = true <;>
    by_cases hid : env.user.id = view.calledById <;>
    simp [hact, hgm, hid, emitted, emitted_append]

theorem deliver_preserves (P : VoteState → Prop) (gmEnv : Env)
    (hdef : P defaultVote)
    (hpush : ∀ s oderId voterName, P s → s.active = true → oderId ∉ s.voterIds →
      s.voters.length + 1 < gmEnv.settings.vetoThreshold → P (pushVoter s oderId voterName)) :
    ∀ (msgs : List SocketMsg) (s : VoteState), P s →
      (∀ v, SocketMsg.requestCallJubilee v ∈ msgs → P v) → P (deliver gmEnv msgs s) := by
  intro msgs
  induction msgs with
  | nil => intro s hs _; exact hs
  | cons m rest ih =>
    intro s hs hv
    apply ih
    · rcases processor_cases gmEnv m s with h | h | ⟨v, hm, h⟩ | ⟨i, n, ha, hi, hl, h⟩
      · rw [h]; exact hs
      · rw [h]; exact hdef
      · rw [h]; exact hv v (by simp [hm])
      · rw [h]; exact hpush s i n hs ha hi hl
    · intro v hmem
      exact hv v (List.mem_cons_of_mem _ hmem)

/-- A property of vote records is kept by one intent when it holds of the default record, of
every record `callJubilee` builds for the acting user, and is kept by appending a new voter
below the threshold. -/
theorem step_preserves (P : VoteState → Prop) (cfg : Settings) (gm : User)
    (hdef : P defaultVote)
    (hpush : ∀ s oderId voterName, P s → s.active = true → oderId ∉ s.voterIds →
      s.voters.length + 1 < cfg.vetoThreshold → P (pushVoter s oderId voterName))
    (s : VoteState) (hs : P s) (op : Op)
    (hnew : ∀ topic now, P (newVote op.user topic now)) : P (step cfg gm s op) := by
  cases op with
  | call u topic now view =>
    simp only [step]
    by_cases hgm : u.isGM = true
    · simp only [hgm, if_true]
      unfold callJubilee
      by_cases hact : s.active = true
      · simpa [hact] using hs
      · simpa [hact, hgm] using hnew topic now
    · simp only [hgm]
      apply deliver_preserves P _ hdef hpush _ _ hs
      intro v hv
      rw [callJubilee_emitted _ _ _ _ hv]
      exact hnew topic now
  | vote u now view =>
    simp only [step]
    by_cases hgm : u.isGM = true
    · simp only [hgm, if_true]
      unfold castVote
      by_cases hact : s.active = true <;> by_cases hcan : cfg.gmCanVeto = true <;>
        by_cases hin : u.id ∈ s.voterIds <;> simp [hact, hgm, hcan, hin, hs]
      rcases processVote_cases ⟨u, cfg, now⟩ u.id (displayName u) s with h | h | h
      · rw [h]; exact hs
      · rw [h]; exact hdef
      · rw [h.2.2.2]; exact hpush s _ _ hs h.1 h.2.1 h.2.2.1
    · simp only [hgm]
      apply deliver_preserves P _ hdef hpush _ _ hs
      intro v hv
      exact absurd hv (castVote_emitted _ _ _)
  | cancel u now view =>
    simp only [step]
    by_cases hgm : u.isGM = true
    · simp only [hgm, if_true]
      unfold cancelJubilee
      by_cases hact : s.active = true <;> simp [hact, hgm, hs, hdef]
    · simp only [hgm]
      apply deliver_preserves P _ hdef hpush _ _ hs
      intro v hv
      exact absurd hv (cancelJubilee_emitted _ _ _)

/-- A property of vote records holds after every sequence of intents when it holds at the
start, of the default record, of every record `callJubilee` builds for a user with `Q`, and
is kept by appending a new voter below the threshold. -/
theorem runOps_preserves (P : VoteState → Prop) (Q : User → Prop) (cfg : Settings) (gm : User)
    (hdef : P defaultVote)
    (hnew : ∀ u topic now, Q u → P (newVote u topic now))
    (hpush : ∀ s oderId voterName, P s → s.active = true → oderId ∉ s.voterIds →
      s.voters.length + 1 < cfg.vetoThreshold → P (pushVoter s oderId voterName)) :
    ∀ (ops : List Op) (s : VoteState), P s → (∀ op ∈ ops, Q op.user) →
      P (runOps cfg gm ops s) := by
  intro ops
  induction ops with
  | nil => intro s hs _; exact hs
  | cons op rest ih =>
    intro s hs hq
    apply ih
    · exact step_preserves P cfg gm hdef hpush s hs op
        (fun topic now => hnew _ topic now (hq op (List.mem_cons_self _ _)))
    · intro o ho
      exact hq o (List.mem_cons_of_mem _ ho)


/-! ## Claims -/

/-- C1 (the code departs from the claim): with the vote of `playerA` active, a local
`callJubilee` on the authority is rejected and stores the same record, but the forwarded
`requestCallJubilee` of `playerB` is stored without any check and replaces the active vote. -/
theorem forwarded_call_replaces_active_vote :
    shrineVote.active = true ∧
    callJubilee ⟨gmUser, defaultSettings, 6⟩ "cross the bridge" shrineVote =
      (shrineVote, [.warn "A Jubilee vote is already in progress! Vote or cancel it first."]) ∧
    (registerGMSocketProcessor ⟨gmUser, defaultSettings, 6⟩
      (.requestCallJubilee bridgeVote) shrineVote).1 = bridgeVote ∧
    step defaultSettings gmUser shrineVote (.call playerB "cross the bridge" 6 defaultVote)
      = bridgeVote ∧
    bridgeVote ≠ shrineVote := by
  decide

/-- C2 (the code departs from the claim): `playerB` is neither GM nor the caller of the
active vote of `playerA`.  A local `cancelJubilee` on an up-to-date copy is rejected, but the
forwarded `requestCancel` carries no requester and the authority resets the vote for it:
here `playerB` passes the local check on a stale copy that still names them as caller. -/
theorem forwarded_cancel_resets_for_any_requester :
    shrineVote.active = true ∧ playerB.isGM = false ∧ playerB.id ≠ shrineVote.calledById ∧
    cancelJubilee ⟨playerB, defaultSettings, 7⟩ shrineVote =
      (shrineVote, [.warn "Only the GM or the person who called the Jubilee can cancel it."]) ∧
    (registerGMSocketProcessor ⟨gmUser, defaultSettings, 7⟩ .requestCancel shrineVote).1
      = defaultVote ∧
    step defaultSettings gmUser shrineVote (.cancel playerB 7 bridgeVote) = defaultVote ∧
    defaultVote ≠ shrineVote := by
  decide

/-- C3: with a threshold of at least 2, no record stored after any sequence of call, vote and
cancel intents is active with as many voters as the threshold; and the `processVote` in which
the count reaches the threshold stores the default idle record. -/
theorem never_active_at_threshold (cfg : Settings) (gm : User) (ops : List Op)
    (hthr : 2 ≤ cfg.vetoThreshold) :
    ¬ ((runOps cfg gm ops defaultVote).active = true ∧
        (runOps cfg gm ops defaultVote).voters.length ≥ cfg.vetoThreshold) ∧
    ∀ (u : User) (now : Nat) (oderId voterName : String) (s : VoteState),
      u.isGM = true → s.active = true → oderId ∉ s.voterIds →
      s.voters.length + 1 ≥ cfg.vetoThreshold →
      (processVote ⟨u, cfg, now⟩ oderId voterName s).1 = defaultVote := by
  constructor
  · have h := runOps_preserves
      (fun s => s.active = true → s.voters.length < cfg.vetoThreshold) (fun _ => True) cfg gm
      (by simp [defaultVote])
      (by intro u topic now _ _; simp [newVote]; omega)
      (by intro s i n _ _ _ hlt _; simpa [pushVoter] using hlt)
      ops defaultVote (by simp [defaultVote]) (by intros; trivial)
    intro hc
    have := h hc.1
    omega
  · intro u now oderId voterName s hgm hact hin hge
    have hle : cfg.vetoThreshold ≤ s.voters.length + 1 := hge
    unfold processVote
    simp [hgm, hact, hin, hle]

/-- Witness of C3: threshold 3, `playerA` calls and `playerB` votes. -/
theorem never_active_at_threshold_witness :
    2 ≤ defaultSettings.vetoThreshold ∧
    ¬ ((runOps defaultSettings gmUser
          [.call playerA "loot the shrine" 5 defaultVote, .vote playerB 6 shrineVote]
          defaultVote).active = true ∧
        (runOps defaultSettings gmUser
          [.call playerA "loot the shrine" 5 defaultVote, .vote playerB 6 shrineVote]
          defaultVote).voters.length ≥ defaultSettings.vetoThreshold) :=
  ⟨by decide, (never_active_at_threshold defaultSettings gmUser _ (by decide)).1⟩

/-- C4: when every acting user has a non-empty id (the host assigns one to every user), the
record stored after any sequence of call, vote and cancel intents is active exactly when its
topic is not the empty string, exactly when `voters` is non-empty, exactly when `calledById`
is set, and exactly when `timestamp` is not null. -/
theorem active_iff_fields_set (cfg : Settings) (gm : User) (ops : List Op)
    (hid : ∀ op ∈ ops, op.user.id ≠ "") :
    ((runOps cfg gm ops defaultVote).active = true ↔ (runOps cfg gm ops defaultVote).topic ≠ "") ∧
    ((runOps cfg gm ops defaultVote).active = true ↔ (runOps cfg gm ops defaultVote).voters ≠ []) ∧
    ((runOps cfg gm ops defaultVote).active = true ↔
      (runOps cfg gm ops defaultVote).calledById ≠ "") ∧
    ((runOps cfg gm ops defaultVote).active = true ↔
      (runOps cfg gm ops defaultVote).timestamp ≠ none) := by
  have h := runOps_preserves
    (fun s => (s.active = false ∧ s.topic = "" ∧ s.voters = [] ∧ s.calledById = "" ∧
        s.timestamp = none) ∨
      (s.active = true ∧ s.topic ≠ "" ∧ s.voters ≠ [] ∧ s.calledById ≠ "" ∧
        s.timestamp ≠ none))
    (fun u => u.id ≠ "") cfg gm
    (by left; simp [defaultVote])
    (by
      intro u topic now hu
      right
      refine ⟨rfl, ?_, by simp [newVote], by simpa [newVote] using hu, by simp [newVote]⟩
      by_cases ht : topic = ""
      · simp [newVote, ht]
      · simp [newVote, ht])
    (by
      intro s i n hs hact _ _
      rcases hs with hs | hs
      · rw [hs.1] at hact; cases hact
      · right
        exact ⟨hs.1, hs.2.1, by simp [pushVoter], hs.2.2.2.1, hs.2.2.2.2⟩)
    ops defaultVote (by left; simp [defaultVote]) hid
  rcases h with h | h
  · simp [h.1, h.2.1, h.2.2.1, h.2.2.2.1, h.2.2.2.2]
  · simp [h.1, h.2.1, h.2.2.1, h.2.2.2.1, h.2.2.2.2]

/-- Witness of C4: `playerA` calls, `playerB` votes; the stored record is active. -/
theorem active_iff_fields_set_witness :
    (∀ op ∈ [Op.call playerA "loot the shrine" 5 defaultVote, Op.vote playerB 6 shrineVote],
      op.user.id ≠ "") ∧
    (runOps defaultSettings gmUser
      [.call playerA "loot the shrine" 5 defaultVote, .vote playerB 6 shrineVote]
      defaultVote).active = true ∧
    ((runOps defaultSettings gmUser
      [.call playerA "loot the shrine" 5 defaultVote, .vote playerB 6 shrineVote]
      defaultVote).active = true ↔
     (runOps defaultSettings gmUser
      [.call playerA "loot the shrine" 5 defaultVote, .vote playerB 6 shrineVote]
      defaultVote).calledById ≠ "") :=
  ⟨by decide, by decide,
    (active_iff_fields_set defaultSettings gmUser
      [.call playerA "loot the shrine" 5 defaultVote, .vote playerB 6 shrineVote]
      (by decide)).2.2.1⟩

/-- C5: applying `processVote` for the same participant twice in succession leaves the record
produced by the first application unchanged, and `voters` is at most one longer than at the
start. -/
theorem processVote_twice (env : Env) (oderId voterName : String) (s : VoteState) :
    (processVote env oderId voterName (processVote env oderId voterName s).1).1
      = (processVote env oderId voterName s).1 ∧
    (processVote env oderId voterName (processVote env oderId voterName s).1).1.voters.length
      ≤ s.voters.length + 1 := by
  have hsecond : (processVote env oderId voterName (processVote env oderId voterName s).1).1
      = (processVote env oderId voterName s).1 := by
    rcases processVote_cases env oderId voterName s with h | h | h
    · rw [h]; exact h
    · rw [h]; unfold processVote; simp [defaultVote]
    · rw [h.2.2.2]; unfold processVote; simp [pushVoter]
  refine ⟨hsecond, ?_⟩
  rw [hsecond]
  rcases processVote_cases env oderId voterName s with h | h | h
  · rw [h]; omega
  · rw [h]; simp [defaultVote]
  · rw [h.2.2.2]; simp [pushVoter]

/-- The record stored on the authority after a call from the idle state: `newVote`, written
directly by a GM and through the forwarded request for any other user. -/
theorem step_call_idle (cfg : Settings) (gm u : User) (topic : String) (now : Nat)
    (s view : VoteState) (hs : s.active = false) (hview : view.active = false)
    (hgm : gm.isGM = true) :
    step cfg gm s (.call u topic now view) = newVote u topic now := by
  by_cases hu : u.isGM = true
  · simp [step, callJubilee, hu, hs]
  · by_cases hsound : cfg.soundEnabled = true <;>
      simp [step, callJubilee, hu, hview, hsound, emitted, deliver, registerGMSocketProcessor,
        hgm]

/-- C6 (the code departs from the claim): the GM calls from the idle state while `gmCanVeto`
is false.  The new active record lists the GM as first voter, so `voters` and `voterIds` are
not empty, although `castVote` refuses the vote of the same GM and `canVote` hides the vote
button from them; with a threshold of 2 the vote of one player then completes the veto with
the GM among the dissenters. -/
theorem gm_caller_recorded_when_ineligible :
    gmUser.isGM = true ∧ defaultSettings.gmCanVeto = false ∧
    (callJubilee ⟨gmUser, defaultSettings, 5⟩ "cross the bridge" defaultVote).1.active = true ∧
    (callJubilee ⟨gmUser, defaultSettings, 5⟩ "cross the bridge" defaultVote).1.voters
      = ["Gamemaster"] ∧
    (callJubilee ⟨gmUser, defaultSettings, 5⟩ "cross the bridge" defaultVote).1.voterIds
      = ["gm"] ∧
    ¬ ((callJubilee ⟨gmUser, defaultSettings, 5⟩ "cross the bridge" defaultVote).1.voters = [] ∧
       (callJubilee ⟨gmUser, defaultSettings, 5⟩ "cross the bridge" defaultVote).1.voterIds
        = []) ∧
    castVote ⟨gmUser, defaultSettings, 6⟩ shrineVote
      = (shrineVote,
          [.warn "The GM cannot participate in Jubilee votes (configurable in settings)."]) ∧
    canVote ⟨gmUser, defaultSettings, 6⟩ shrineVote = false ∧
    quorumTwo.gmCanVeto = false ∧
    runOps quorumTwo gmUser
      [.call gmUser "cross the bridge" 5 defaultVote,
       .vote playerB 6 (newVote gmUser "cross the bridge" 5)] defaultVote = defaultVote ∧
    chats (processVote ⟨gmUser, quorumTwo, 6⟩ "b" "Bert"
        (callJubilee ⟨gmUser, quorumTwo, 5⟩ "cross the bridge" defaultVote).1).2
      = [.vetoReached "cross the bridge" (some "Gamemaster, Bert")] := by
  decide

/-- C7 (counterexample): a call with a topic of one blank stores the blank, not the
placeholder. -/
theorem blank_topic_stored_raw :
    (callJubilee ⟨gmUser, defaultSettings, 5⟩ " " defaultVote).1.active = true ∧
    (callJubilee ⟨gmUser, defaultSettings, 5⟩ " " defaultVote).1.topic = " " ∧
    (callJubilee ⟨gmUser, defaultSettings, 5⟩ " " defaultVote).1.topic
      ≠ "an unnamed proposal" ∧
    (" ".toList.all Char.isWhitespace) = true := by
  decide

/-- C7 (amended): after every successful call from the idle state with topic `t`, the stored
topic is the placeholder "an unnamed proposal" when `t` is the empty string and is exactly `t`
otherwise, a topic of blanks included. -/
theorem stored_topic_raw_or_placeholder (cfg : Settings) (gm u : User) (t : String) (now : Nat)
    (s view : VoteState) (hs : s.active = false) (hview : view.active = false)
    (hgm : gm.isGM = true) :
    (step cfg gm s (.call u t now view)).topic
      = if t = "" then "an unnamed proposal" else t := by
  rw [step_call_idle cfg gm u t now s view hs hview hgm]
  by_cases ht : t = "" <;> simp [newVote, ht]

/-- Witness of C7 (amended): `playerA` calls with the raw markup topic `<b>`. -/
theorem stored_topic_raw_or_placeholder_witness :
    defaultVote.active = false ∧ gmUser.isGM = true ∧
    (step defaultSettings gmUser defaultVote (.call playerA "<b>" 5 defaultVote)).topic
      = if "<b>" = "" then "an unnamed proposal" else "<b>" :=
  ⟨by decide, by decide,
    stored_topic_raw_or_placeholder defaultSettings gmUser playerA "<b>" 5
      defaultVote defaultVote (by decide) (by decide) (by decide)⟩

/-- C8 (counterexample): with threshold 2 the vote of `playerB` completes the veto on the
vote of `playerA`; the socket messages emitted are `vetoReached` with the topic and
`refreshTracker`, and none of them carries the final voter list. -/
theorem vetoReached_carries_topic_only :
    shrineVote.active = true ∧ "b" ∉ shrineVote.voterIds ∧
    shrineVote.voters.length + 1 ≥ quorumTwo.vetoThreshold ∧
    emitted (processVote ⟨gmUser, quorumTwo, 6⟩ "b" "Bert" shrineVote).2
      = [.vetoReached "loot the shrine", .refreshTracker] ∧
    ¬ ∃ m ∈ emitted (processVote ⟨gmUser, quorumTwo, 6⟩ "b" "Bert" shrineVote).2,
        m.action = "vetoReached" ∧ m.topicField = some shrineVote.topic ∧
        m.votersField = some (shrineVote.voters ++ ["Bert"]) := by
  decide

/-- C8 (amended): for an active record and a participant not yet in `voterIds`, when
`voters.length + 1` reaches the threshold the authority stores the default idle record, the
`vetoReached` socket message carries the topic read before the reset and nothing else, and
the final voter list (previous voters, then the new one, joined in vote order) is carried by
the chat message when `showVoterNames` is on and by nothing otherwise; below the threshold
the record stays active with the participant appended last to `voters` and `voterIds`, the other
fields unchanged. -/
theorem processVote_new_voter (env : Env) (oderId voterName : String) (s : VoteState)
    (hgm : env.user.isGM = true) (hact : s.active = true) (hnew : oderId ∉ s.voterIds) :
    (s.voters.length + 1 ≥ env.settings.vetoThreshold →
      (processVote env oderId voterName s).1 = defaultVote ∧
      emitted (processVote env oderId voterName s).2
        = [.vetoReached s.topic, .refreshTracker] ∧
      chats (processVote env oderId voterName s).2
        = [.vetoReached s.topic
            (if env.settings.showVoterNames then
              some (", ".intercalate (s.voters ++ [voterName])) else none)]) ∧
    (s.voters.length + 1 < env.settings.vetoThreshold →
      (processVote env oderId voterName s).1
        = { s with voters := s.voters ++ [voterName], voterIds := s.voterIds ++ [oderId] } ∧
      (processVote env oderId voterName s).1.active = true ∧
      emitted (processVote env oderId voterName s).2 = [.refreshTracker]) := by
  constructor
  · intro hge
    have hle : env.settings.vetoThreshold ≤ s.voters.length + 1 := hge
    unfold processVote
    by_cases hsound : env.settings.soundEnabled = true <;>
      simp [hgm, hact, hnew, hle, hsound, emitted, chats]
  · intro hlt
    have hle : ¬ env.settings.vetoThreshold ≤ s.voters.length + 1 := by omega
    unfold processVote
    simp [hgm, hact, hnew, hle, emitted]

/-- Witness of C8 (amended): threshold 2, `playerB` completes the veto of `playerA`. -/
theorem processVote_new_voter_witness :
    gmUser.isGM = true ∧ shrineVote.active = true ∧ "b" ∉ shrineVote.voterIds ∧
    shrineVote.voters.length + 1 ≥ quorumTwo.vetoThreshold ∧
    (processVote ⟨gmUser, quorumTwo, 6⟩ "b" "Bert" shrineVote).1 = defaultVote ∧
    chats (processVote ⟨gmUser, quorumTwo, 6⟩ "b" "Bert" shrineVote).2
      = [.vetoReached "loot the shrine" (some "Brunhilde, Bert")] :=
  ⟨by decide, by decide, by decide, by decide,
    ((processVote_new_voter ⟨gmUser, quorumTwo, 6⟩ "b" "Bert" shrineVote
      (by decide) (by decide) (by decide)).1 (by decide)).1,
    by decide⟩

/-- C9: when the acting user is GM and `gmCanVeto` is false, or when the record the acting
client reads is idle, `castVote` returns that record unchanged and its whole trace is one
local warning: no socket message, no chat message, and none of the effects that follow the
call of `processVote`. -/
theorem castVote_rejected (env : Env) (vote : VoteState)
    (h : (env.user.isGM = true ∧ env.settings.gmCanVeto = false) ∨ vote.active = false) :
    (castVote env vote).1 = vote ∧
    (∃ msg, (castVote env vote).2 = [Effect.warn msg]) ∧
    emitted (castVote env vote).2 = [] ∧
    chats (castVote env vote).2 = [] := by
  unfold castVote
  by_cases hact : vote.active = true
  · rcases h with ⟨hgm, hcan⟩ | h
    · simp [hact, hgm, hcan, emitted, chats]
    · rw [h] at hact; cases hact
  · simp [hact, emitted, chats]

/-- Witness of C9: the GM tries to vote on the vote of `playerA` while `gmCanVeto` is false. -/
theorem castVote_rejected_witness :
    ((gmUser.isGM = true ∧ defaultSettings.gmCanVeto = false) ∨ shrineVote.active = false) ∧
    shrineVote.active = true ∧
    (castVote ⟨gmUser, defaultSettings, 6⟩ shrineVote).1 = shrineVote :=
  ⟨by decide, by decide,
    (castVote_rejected ⟨gmUser, defaultSettings, 6⟩ shrineVote (by decide)).1⟩

/-- C10: the record stored after any sequence of call, vote and cancel intents lists no
participant id twice in `voterIds`. -/
theorem voterIds_nodup (cfg : Settings) (gm : User) (ops : List Op) :
    (runOps cfg gm ops defaultVote).voterIds.Nodup := by
  exact runOps_preserves (fun s => s.voterIds.Nodup) (fun _ => True) cfg gm
    (by simp [defaultVote])
    (by intro u topic now _; simp [newVote])
    (by
      intro s i n hs _ hin _
      simp only [pushVoter]
      exact List.Nodup.append hs (List.nodup_singleton i) (by simpa using hin))
    ops defaultVote (by simp [defaultVote]) (by intros; trivial)

/-- The tracker markup of an active vote is the topic element between two other strings. -/
theorem renderTracker_active (encodeHTML : String → String) (env : Env) (vote : VoteState)
    (hact : vote.active = true) :
    ∃ pre post, renderTracker encodeHTML env vote = pre ++ topicHtml encodeHTML vote ++ post := by
  refine ⟨"\n    <div class=\"jubilee-tracker__header\">\n      <span class=\"jubilee-tracker__title\">⚖ Jubilee</span>\n      <span class=\"jubilee-tracker__status\">"
      ++ "VOTE ACTIVE" ++ "</span>\n    </div>\n    " ++ "\n      ",
    "\n      <div class=\"jubilee-tracker__pips\">" ++ pipsHtml encodeHTML env vote
      ++ "</div>\n      <div class=\"jubilee-tracker__count\">"
      ++ toString vote.voters.length ++ " / " ++ toString env.settings.vetoThreshold
      ++ " votes</div>\n      <div class=\"jubilee-tracker__actions\">\n        "
      ++ voteButtonHtml env vote ++ "\n        " ++ cancelButtonHtml env vote
      ++ "\n      </div>\n    " ++ "\n  ", ?_⟩
  simp only [renderTracker, hact, if_true, String.append_assoc]

/-- C11 (the code departs from the claim): for the active vote of `playerA` on a topic that is
markup, whatever the host encoder does, the topic element of the tracker has the encoded topic
in its `title` attribute and the raw topic, with its unescaped `<`, as its visible text. -/
theorem tracker_topic_text_raw :
    markupVote.active = true ∧ markupVote.topic = "<img src=x onerror=alert(1)>" ∧
    '<' ∈ markupVote.topic.data ∧
    ∀ encodeHTML : String → String,
      topicHtml encodeHTML markupVote
        = "<div class=\"jubilee-tracker__topic\" title=\""
            ++ encodeHTML "<img src=x onerror=alert(1)>"
            ++ "\">\n        \"" ++ "<img src=x onerror=alert(1)>" ++ "\"\n      </div>" ∧
      ∃ pre post, renderTracker encodeHTML ⟨playerB, defaultSettings, 6⟩ markupVote
        = pre ++ topicHtml encodeHTML markupVote ++ post :=
  ⟨by decide, by decide, by decide, fun encodeHTML =>
    ⟨rfl, renderTracker_active encodeHTML _ markupVote (by decide)⟩⟩

theorem chats_append (xs ys : List Effect) : chats (xs ++ ys) = chats xs ++ chats ys := by
  induction xs with
  | nil => rfl
  | cons x xs ih => cases x <;> simp [chats, ih]

/-- C12: the flag `canVote` of `renderTracker`, which alone decides whether the template holds
the vote button, is true exactly when `castVote` for the same user on the same record gets past
its three guards and reaches the step that sends the vote (its trace then has the chat
message), which is exactly when the guards as the specification words them hold; for an
eligible user and an active vote it is true exactly when `voterIds` does not list the user. -/
theorem canVote_iff_castVote_passes (env : Env) (vote : VoteState) :
    (canVote env vote = true ↔ chats (castVote env vote).2 ≠ []) ∧
    (canVote env vote = true ↔ passesVoteGuards env vote) ∧
    (voteButtonHtml env vote ≠ "" ↔ canVote env vote = true) ∧
    (vote.active = true → (env.settings.gmCanVeto = true ∨ env.user.isGM = false) →
      (canVote env vote = true ↔ env.user.id ∉ vote.voterIds)) := by
  have hchat : canVote env vote = true ↔ chats (castVote env vote).2 ≠ [] := by
    unfold canVote castVote
    by_cases hact : vote.active = true <;> by_cases hcan : env.settings.gmCanVeto = true <;>
      by_cases hgm : env.user.isGM = true <;> by_cases hin : env.user.id ∈ vote.voterIds <;>
      simp [hact, hcan, hgm, hin, chats, chats_append]
  have hspec : canVote env vote = true ↔ passesVoteGuards env vote := by
    unfold canVote passesVoteGuards
    by_cases hact : vote.active = true <;> by_cases hcan : env.settings.gmCanVeto = true <;>
      by_cases hgm : env.user.isGM = true <;> by_cases hin : env.user.id ∈ vote.voterIds <;>
      simp [hact, hcan, hgm, hin]
  refine ⟨hchat, hspec, ?_, ?_⟩
  · unfold voteButtonHtml
    by_cases hc : canVote env vote = true
    · simp only [hc, if_true, iff_true]
      decide
    · simp [hc]
  · intro hact helig
    rw [hspec]
    unfold passesVoteGuards
    rcases helig with h | h <;> simp [hact, h]

end JubileeVeto
